import Mathlib

/-!
Verification of the streaming interface of `lime::SDRDevice`
(src/include/limesuite/SDRDevice.h).

The header declares the streaming API (`StreamSetup`, `StreamStart`,
`StreamStop`, `StreamRx`, `StreamTx`, `StreamStatus`) as pure virtual
functions together with the configuration and statistics value types
(`StreamConfig`, `StreamConfig::Extras`, `StreamStats`, `StreamMeta`) and
default implementations of the optional GPIO / custom-parameter operations.

The value types and the default bodies are embedded directly from the
header.  The behaviour of the streaming engine itself (setup validation,
buffering, timestamp scheduling, statistics) is not part of the header:
those components are modelled from the specification, each such definition
carrying a doc comment starting with `Modelled from the spec:`.

C++ `float` fields are modelled as exact rationals (`ℚ`); fixed-width
machine integers are modelled as `Nat`/`Int` (no arithmetic in this file
ever reaches a wrap-around boundary).
-/

namespace SDRDevice

/-- `static constexpr uint8_t MAX_CHANNEL_COUNT = 16;` from SDRDevice.h. -/
def MAX_CHANNEL_COUNT : Nat := 16

/-- `static constexpr uint8_t MAX_RFSOC_COUNT = 16;` from SDRDevice.h. -/
def MAX_RFSOC_COUNT : Nat := 16

/-- The `StreamConfig::DataFormat` enumeration: `I16`, `I12`, `F32`. -/
inductive DataFormat
  | I16
  | I12
  | F32
deriving DecidableEq

/-- The enumeration values of `DataFormat` as they are stored in the C++
struct (`I16 = 0`, `I12 = 1`, `F32 = 2`); any other stored value is not a
recognized format. -/
def decodeFormat : Nat → Option DataFormat
  | 0 => some DataFormat.I16
  | 1 => some DataFormat.I12
  | 2 => some DataFormat.F32
  | _ => none

/-- A stored format value is recognized when it decodes to one of the three
enumeration values. -/
def recognizedFormat (v : Nat) : Bool := (decodeFormat v).isSome

/-! ## Format Converter

Modelled from the spec (§4.2): "16-bit integer ↔ 32-bit float uses a fixed
linear scale with saturation on overflow; 12-bit packed integer
unpacks/packs two samples into three bytes, sign-extended to the host's
signed 16-bit representation."  The converter implementation is not in the
header (it sits behind the pure virtual `StreamRx`/`StreamTx`), so it is
modelled here.  The fixed linear scale is full scale `32768`; packing to
12 bits keeps the high 12 bits of the 16-bit value (an arithmetic shift
right by 4, i.e. floor division by 16), and unpacking shifts back left,
so one 12-bit quantization step spans 16 host I16 units. -/

/-- Modelled from the spec: link I16 sample to host F32, fixed linear scale. -/
def i16ToF32 (n : ℤ) : ℚ := (n : ℚ) / 32768

/-- Modelled from the spec: host F32 sample to link I16, fixed linear scale
with saturation on overflow. -/
def f32ToI16 (q : ℚ) : ℤ := max (-32768) (min 32767 (round (q * 32768)))

/-- Modelled from the spec: narrow a 16-bit sample to its 12-bit link
representation (arithmetic shift right by 4). -/
def i16ToI12 (n : ℤ) : ℤ := n / 16

/-- Modelled from the spec: widen a 12-bit link sample to the host 16-bit
representation (shift left by 4). -/
def i12ToI16 (n : ℤ) : ℤ := n * 16

/-- Modelled from the spec: 12-bit link sample to host F32, via the 16-bit
scale. -/
def i12ToF32 (n : ℤ) : ℚ := i16ToF32 (i12ToI16 n)

/-- Modelled from the spec: host F32 sample to 12-bit link representation. -/
def f32ToI12 (q : ℚ) : ℤ := i16ToI12 (f32ToI16 q)

/-- Host F32, link F32: the converter is the identity in both directions. -/
def rtF32F32 (q : ℚ) : ℚ := q

/-- Host I16, link I16: identity round trip. -/
def rtI16I16 (n : ℤ) : ℤ := n

/-- Host I12, link I12: identity round trip. -/
def rtI12I12 (n : ℤ) : ℤ := n

/-- Host I16 through link F32 and back. -/
def rtI16F32 (n : ℤ) : ℤ := f32ToI16 (i16ToF32 n)

/-- Host I12 through link F32 and back. -/
def rtI12F32 (n : ℤ) : ℤ := f32ToI12 (i12ToF32 n)

/-- Host I12 through link I16 and back (widening, lossless). -/
def rtI12I16 (n : ℤ) : ℤ := i16ToI12 (i12ToI16 n)

/-- Host I16 through link I12 and back (narrowing by one 12-bit step). -/
def rtI16I12 (n : ℤ) : ℤ := i12ToI16 (i16ToI12 n)

/-- Host F32 through link I16 and back (narrowing to the I16 grid). -/
def rtF32I16 (q : ℚ) : ℚ := i16ToF32 (f32ToI16 q)

/-- Host F32 through link I12 and back (narrowing to the I12 grid). -/
def rtF32I12 (q : ℚ) : ℚ := i12ToF32 (f32ToI12 q)

lemma f32ToI16_le : ∀ q : ℚ, f32ToI16 q ≤ 32767 := by
  intro q
  unfold f32ToI16
  rcases le_total (-32768 : ℤ) (min 32767 (round (q * 32768))) with h | h
  · rw [max_eq_right h]
    exact min_le_left _ _
  · rw [max_eq_left h]
    norm_num

lemma neg_le_f32ToI16 : ∀ q : ℚ, -32768 ≤ f32ToI16 q := by
  intro q
  exact le_max_left _ _

/-- The saturating quantizer lands within one I16 unit of the scaled input
whenever the input is within full scale. -/
lemma f32ToI16_close (q : ℚ) (h1 : -1 ≤ q) (h2 : q ≤ 1) :
    |(f32ToI16 q : ℚ) - q * 32768| ≤ 1 := by
  have hround : |q * 32768 - (round (q * 32768) : ℚ)| ≤ 1 / 2 :=
    abs_sub_round (q * 32768)
  have hr := abs_le.mp hround
  have hub : q * 32768 ≤ 32768 := by nlinarith
  have hlb : (-32768 : ℚ) ≤ q * 32768 := by nlinarith
  have hmubQ : (round (q * 32768) : ℚ) < 32769 := by linarith [hr.1]
  have hmlbQ : (-32769 : ℚ) < (round (q * 32768) : ℚ) := by linarith [hr.2]
  have hmub : round (q * 32768) < 32769 := by exact_mod_cast hmubQ
  have hmlb : (-32769 : ℤ) < round (q * 32768) := by exact_mod_cast hmlbQ
  rcases le_or_lt (round (q * 32768)) 32767 with hcase | hcase
  · have hc : f32ToI16 q = round (q * 32768) := by
      unfold f32ToI16
      rw [min_eq_right hcase, max_eq_right (by omega)]
    rw [hc, abs_sub_comm]
    linarith [hround]
  · have hm : round (q * 32768) = 32768 := by omega
    have hc : f32ToI16 q = 32767 := by
      unfold f32ToI16
      rw [hm]
      norm_num
    rw [hc]
    have hlow : 32768 - 1 / 2 ≤ q * 32768 := by
      have h := hr.1
      rw [hm] at h
      push_cast at h
      linarith
    rw [abs_le]
    constructor <;> push_cast <;> linarith

/-- C2: For every supported sample format and every sample value in the
format's full-scale range, converting host format to link format and back
reproduces the original sample exactly for the 32-bit float format and for
same- or wider-width integer formats, and within one quantization step for
the narrowing conversions (one I12 step is 16 host I16 units, i.e. `1/2048`
of full scale; one I16 step is `1/32768` of full scale). -/
theorem roundTrip_lossless_upto_quantization :
    (∀ q : ℚ, rtF32F32 q = q) ∧
    (∀ n : ℤ, rtI16I16 n = n) ∧
    (∀ n : ℤ, rtI12I12 n = n) ∧
    (∀ n : ℤ, -32768 ≤ n → n ≤ 32767 → rtI16F32 n = n) ∧
    (∀ n : ℤ, -2048 ≤ n → n ≤ 2047 → rtI12F32 n = n) ∧
    (∀ n : ℤ, rtI12I16 n = n) ∧
    (∀ n : ℤ, |rtI16I12 n - n| ≤ 15) ∧
    (∀ q : ℚ, -1 ≤ q → q ≤ 1 → |rtF32I16 q - q| ≤ 1 / 32768) ∧
    (∀ q : ℚ, -1 ≤ q → q ≤ 1 → |rtF32I12 q - q| ≤ 1 / 2048) := by
  refine ⟨fun q => rfl, fun n => rfl, fun n => rfl, ?_, ?_, ?_, ?_, ?_, ?_⟩
  · intro n hlo hhi
    unfold rtI16F32 i16ToF32 f32ToI16
    rw [div_mul_cancel₀ _ (by norm_num : (32768 : ℚ) ≠ 0), round_intCast]
    omega
  · intro n hlo hhi
    unfold rtI12F32 i12ToF32 f32ToI12 i16ToF32 f32ToI16 i16ToI12 i12ToI16
    rw [div_mul_cancel₀ _ (by norm_num : (32768 : ℚ) ≠ 0)]
    rw [round_intCast]
    omega
  · intro n
    unfold rtI12I16 i16ToI12 i12ToI16
    omega
  · intro n
    unfold rtI16I12 i12ToI16 i16ToI12
    rw [abs_le]
    omega
  · intro q h1 h2
    have key := f32ToI16_close q h1 h2
    have heq : rtF32I16 q - q = ((f32ToI16 q : ℚ) - q * 32768) / 32768 := by
      unfold rtF32I16 i16ToF32
      ring
    rw [heq, abs_div, abs_of_pos (show (0 : ℚ) < 32768 by norm_num)]
    exact (div_le_div_iff_of_pos_right (by norm_num)).mpr key
  · intro q h1 h2
    have key := abs_le.mp (f32ToI16_close q h1 h2)
    have hdiv : f32ToI16 q - 15 ≤ f32ToI16 q / 16 * 16 ∧
        f32ToI16 q / 16 * 16 ≤ f32ToI16 q := by omega
    have hcast1 : ((f32ToI16 q : ℤ) : ℚ) - 15 ≤ ((f32ToI16 q / 16 * 16 : ℤ) : ℚ) := by
      exact_mod_cast (by omega : f32ToI16 q - 15 ≤ f32ToI16 q / 16 * 16)
    have hcast2 : ((f32ToI16 q / 16 * 16 : ℤ) : ℚ) ≤ ((f32ToI16 q : ℤ) : ℚ) := by
      exact_mod_cast hdiv.2
    have heq : rtF32I12 q - q =
        (((f32ToI16 q / 16 * 16 : ℤ) : ℚ) - q * 32768) / 32768 := by
      unfold rtF32I12 i12ToF32 f32ToI12 i16ToF32 i16ToI12 i12ToI16
      ring
    have hnum : |((f32ToI16 q / 16 * 16 : ℤ) : ℚ) - q * 32768| ≤ 16 := by
      rw [abs_le]
      constructor <;> linarith [key.1, key.2, hcast1, hcast2]
    rw [heq, abs_div, abs_of_pos (show (0 : ℚ) < 32768 by norm_num)]
    calc |((f32ToI16 q / 16 * 16 : ℤ) : ℚ) - q * 32768| / 32768
        ≤ 16 / 32768 := (div_le_div_iff_of_pos_right (by norm_num)).mpr hnum
      _ = 1 / 2048 := by norm_num

/-- Witness for C2: the conjuncts with range hypotheses, instantiated at
concrete in-range samples. -/
theorem roundTrip_lossless_witness :
    rtI16F32 12345 = 12345 ∧ rtI12F32 (-2048) = -2048 ∧
    |rtF32I16 (1 / 3) - 1 / 3| ≤ 1 / 32768 ∧
    |rtF32I12 1 - 1| ≤ 1 / 2048 :=
  ⟨roundTrip_lossless_upto_quantization.2.2.2.1 12345 (by decide) (by decide),
   roundTrip_lossless_upto_quantization.2.2.2.2.1 (-2048) (by decide) (by decide),
   roundTrip_lossless_upto_quantization.2.2.2.2.2.2.2.1 (1 / 3) (by norm_num) (by norm_num),
   roundTrip_lossless_upto_quantization.2.2.2.2.2.2.2.2 1 (by norm_num) (by norm_num)⟩

/-! ## Value types embedded from the header -/

/-- The `StreamStats` struct from the header; its constructor does
`memset(this, 0, sizeof(StreamStats))`.  The `float` gauges are modelled as
`ℚ`. -/
structure StreamStats where
  timestamp : Nat
  bytesTransferred : Int
  packets : Int
  FIFO_filled : ℚ
  dataRate_Bps : ℚ
  txDataRate_Bps : ℚ
  overrun : Nat
  underrun : Nat
  loss : Nat
  late : Nat
  isTx : Bool
deriving DecidableEq

/-- `StreamStats::StreamStats()`: every byte zeroed, field by field. -/
def StreamStats.init : StreamStats :=
  { timestamp := 0, bytesTransferred := 0, packets := 0, FIFO_filled := 0,
    dataRate_Bps := 0, txDataRate_Bps := 0, overrun := 0, underrun := 0,
    loss := 0, late := 0, isTx := false }

/-- The `StreamConfig::Extras` struct; its constructor zeroes the object and
then sets `usePoll = true`. -/
structure Extras where
  usePoll : Bool
  rxSamplesInPacket : Nat
  rxPacketsInBatch : Nat
  txMaxPacketsInBatch : Nat
  txSamplesInPacket : Nat
deriving DecidableEq

/-- `StreamConfig::Extras::Extras()`: `memset` to zero, then
`usePoll = true`. -/
def Extras.init : Extras :=
  { usePoll := true, rxSamplesInPacket := 0, rxPacketsInBatch := 0,
    txMaxPacketsInBatch := 0, txSamplesInPacket := 0 }

/-- The `StreamConfig` struct from the header.  The channel index arrays
`uint8_t rxChannels[MAX_CHANNEL_COUNT]` are modelled as lists of length
`MAX_CHANNEL_COUNT`; the `DataFormat` members are modelled by their stored
numeric value (so that unrecognized stored values are expressible); the
pointer members (`statusCallback`, `userData`, `extraConfig`) are modelled
as `Option`s, `none` standing for null. -/
structure StreamConfig where
  rxCount : Nat
  rxChannels : List Nat
  txCount : Nat
  txChannels : List Nat
  format : Nat
  linkFormat : Nat
  bufferSize : Nat
  hintSampleRate : ℚ
  alignPhase : Bool
  statusCallback : Option Nat
  userData : Option Nat
  extraConfig : Option Extras
deriving DecidableEq

/-- `StreamConfig::StreamConfig()`: `memset(this, 0, sizeof(StreamConfig))`,
reproduced field by field. -/
def StreamConfig.init : StreamConfig :=
  { rxCount := 0, rxChannels := List.replicate MAX_CHANNEL_COUNT 0,
    txCount := 0, txChannels := List.replicate MAX_CHANNEL_COUNT 0,
    format := 0, linkFormat := 0, bufferSize := 0, hintSampleRate := 0,
    alignPhase := false, statusCallback := none, userData := none,
    extraConfig := none }

/-- The `StreamMeta` struct from the header. -/
structure StreamMeta where
  timestamp : Int
  useTimestamp : Bool
  flush : Bool
deriving DecidableEq

/-- C8: a default-constructed `StreamConfig` has every field equal to its
zero value: counts 0, all channel indices 0, both formats the stored value 0
which decodes to `I16` (the first enumeration value), `bufferSize = 0`,
`hintSampleRate = 0`, `alignPhase = false`, and all three pointers null. -/
theorem streamConfig_default_all_zero :
    StreamConfig.init.rxCount = 0 ∧
    StreamConfig.init.rxChannels = List.replicate MAX_CHANNEL_COUNT 0 ∧
    StreamConfig.init.txCount = 0 ∧
    StreamConfig.init.txChannels = List.replicate MAX_CHANNEL_COUNT 0 ∧
    decodeFormat StreamConfig.init.format = some DataFormat.I16 ∧
    decodeFormat StreamConfig.init.linkFormat = some DataFormat.I16 ∧
    StreamConfig.init.bufferSize = 0 ∧
    StreamConfig.init.hintSampleRate = 0 ∧
    StreamConfig.init.alignPhase = false ∧
    StreamConfig.init.statusCallback = none ∧
    StreamConfig.init.userData = none ∧
    StreamConfig.init.extraConfig = none := by
  decide

/-- C9: a default-constructed `StreamConfig::Extras` has `usePoll = true`
and every other field zero. -/
theorem extras_default_usePoll_true :
    Extras.init.usePoll = true ∧
    Extras.init.rxSamplesInPacket = 0 ∧
    Extras.init.rxPacketsInBatch = 0 ∧
    Extras.init.txMaxPacketsInBatch = 0 ∧
    Extras.init.txSamplesInPacket = 0 := by
  decide

/-- C10: a default-constructed `StreamStats` reads all-zero in every
field. -/
theorem streamStats_default_all_zero :
    StreamStats.init.timestamp = 0 ∧
    StreamStats.init.bytesTransferred = 0 ∧
    StreamStats.init.packets = 0 ∧
    StreamStats.init.FIFO_filled = 0 ∧
    StreamStats.init.dataRate_Bps = 0 ∧
    StreamStats.init.txDataRate_Bps = 0 ∧
    StreamStats.init.overrun = 0 ∧
    StreamStats.init.underrun = 0 ∧
    StreamStats.init.loss = 0 ∧
    StreamStats.init.late = 0 ∧
    StreamStats.init.isTx = false := by
  decide

/-! ## Default bodies of the optional operations

These are the only member function bodies present in the header:
`GPIOWrite`, `GPIORead`, `GPIODirWrite`, `GPIODirRead`,
`CustomParameterWrite`, `CustomParameterRead` all read `{ return -1; }`.
Each is modelled as a function of the observable device state plus its C++
arguments, returning the status and the (unchanged) state; the read
variants also return the caller-visible output buffer, unchanged. -/

/-- Observable device state that the GPIO / custom-parameter operations
could touch; the base-class defaults never do. -/
structure DeviceState where
  gpioLevels : List Nat
  gpioDirections : List Nat
  customParameters : List ℚ
deriving DecidableEq

/-- Default body of `SDRDevice::GPIOWrite`: `{ return -1; }`. -/
def GPIOWrite (dev : DeviceState) (buffer : List Nat) (bufLength : Nat) :
    Int × DeviceState :=
  (-1, dev)

/-- Default body of `SDRDevice::GPIORead`: `{ return -1; }`. -/
def GPIORead (dev : DeviceState) (buffer : List Nat) (bufLength : Nat) :
    Int × DeviceState × List Nat :=
  (-1, dev, buffer)

/-- Default body of `SDRDevice::GPIODirWrite`: `{ return -1; }`. -/
def GPIODirWrite (dev : DeviceState) (buffer : List Nat) (bufLength : Nat) :
    Int × DeviceState :=
  (-1, dev)

/-- Default body of `SDRDevice::GPIODirRead`: `{ return -1; }`. -/
def GPIODirRead (dev : DeviceState) (buffer : List Nat) (bufLength : Nat) :
    Int × DeviceState × List Nat :=
  (-1, dev, buffer)

/-- Default body of `SDRDevice::CustomParameterWrite`: `{ return -1; }`. -/
def CustomParameterWrite (dev : DeviceState) (ids : List Nat) (values : List ℚ)
    (count : Nat) (units : String) : Int × DeviceState :=
  (-1, dev)

/-- Default body of `SDRDevice::CustomParameterRead`: `{ return -1; }`. -/
def CustomParameterRead (dev : DeviceState) (ids : List Nat) (values : List ℚ)
    (count : Nat) (units : Option String) :
    Int × DeviceState × List ℚ × Option String :=
  (-1, dev, values, units)

/-- C7: for every device state, input buffer and length, the base-class
default implementations of the optional GPIO and custom-parameter
operations return `-1` and modify neither the device state nor any
caller-visible output. -/
theorem optional_defaults_return_minus_one :
    ∀ (dev : DeviceState) (buf : List Nat) (len count : Nat) (ids : List Nat)
      (values : List ℚ) (units : String) (runits : Option String),
    GPIOWrite dev buf len = (-1, dev) ∧
    GPIORead dev buf len = (-1, dev, buf) ∧
    GPIODirWrite dev buf len = (-1, dev) ∧
    GPIODirRead dev buf len = (-1, dev, buf) ∧
    CustomParameterWrite dev ids values count units = (-1, dev) ∧
    CustomParameterRead dev ids values count runits = (-1, dev, values, runits) := by
  intro dev buf len count ids values units runits
  exact ⟨rfl, rfl, rfl, rfl, rfl, rfl⟩

/-! ## Stream Controller

`StreamSetup`, `StreamStart` and `StreamStop` are pure virtual in the
header; the controller state machine below is modelled from the spec
(§4.1, §6, §7). -/

/-- Modelled from the spec: lifecycle states of the Stream Controller. -/
inductive StreamState
  | Idle
  | Configured
  | Running
  | Stopped
deriving DecidableEq

/-- Modelled from the spec: one bounded per-channel buffer, allocated at
setup for each declared channel. -/
structure ChannelBuffer where
  channel : Nat
  capacity : Nat
  data : List Int
deriving DecidableEq

/-- Modelled from the spec: the internal default buffer size used when the
descriptor's `bufferSize` hint is zero ("0 - allow to decide internally"). -/
def defaultBufferSize : Nat := 65536

/-- Modelled from the spec: allocate the buffer of one declared channel,
sized from the hint or the internal default. -/
def allocBuffer (cfg : StreamConfig) (ch : Nat) : ChannelBuffer :=
  { channel := ch,
    capacity := if cfg.bufferSize = 0 then defaultBufferSize else cfg.bufferSize,
    data := [] }

/-- Modelled from the spec: the Stream Controller of one RF module: the
lifecycle state, the per-channel buffers it exclusively owns, and the
frozen descriptor. -/
structure Controller where
  state : StreamState
  rxBuffers : List ChannelBuffer
  txBuffers : List ChannelBuffer
  config : Option StreamConfig
deriving DecidableEq

/-- A controller holding no resources (`Idle`). -/
def Controller.idle : Controller :=
  { state := StreamState.Idle, rxBuffers := [], txBuffers := [], config := none }

/-- Result of `StreamSetup` (§6, §7 error taxonomy). -/
inductive SetupResult
  | Ok
  | InvalidConfig
  | AlreadyConfigured
deriving DecidableEq

/-- Duplicate-freedom of a declared channel list. -/
def noDuplicates : List Nat → Bool
  | [] => true
  | x :: xs => !(xs.contains x) && noDuplicates xs

/-- The declared channels of one direction: the first `count` entries of the
index array. -/
def declaredChannels (count : Nat) (chans : List Nat) : List Nat :=
  chans.take count

/-- Modelled from the spec: descriptor invariant for one direction: the
channel count does not exceed `MAX_CHANNEL_COUNT`, every declared index is
in range, and the declared indices are duplicate-free. -/
def validChannelSet (count : Nat) (chans : List Nat) : Bool :=
  decide (count ≤ MAX_CHANNEL_COUNT) &&
  (declaredChannels count chans).all (fun c => decide (c < MAX_CHANNEL_COUNT)) &&
  noDuplicates (declaredChannels count chans)

/-- Modelled from the spec: the full descriptor invariant validated by
`StreamSetup`: both channel sets valid and both stored formats recognized
enumeration values. -/
def validConfig (cfg : StreamConfig) : Bool :=
  validChannelSet cfg.rxCount cfg.rxChannels &&
  validChannelSet cfg.txCount cfg.txChannels &&
  recognizedFormat cfg.format &&
  recognizedFormat cfg.linkFormat

/-- Modelled from the spec: `StreamSetup` fails with `AlreadyConfigured`
outside `Idle`/`Stopped`, validates the descriptor and fails with
`InvalidConfig` if it is malformed, otherwise allocates one buffer per
declared channel and transitions to `Configured`.  Any failure returns the
controller unchanged (partial allocation fully rolled back). -/
def StreamSetup (ctrl : Controller) (cfg : StreamConfig) :
    SetupResult × Controller :=
  if ctrl.state ≠ StreamState.Idle ∧ ctrl.state ≠ StreamState.Stopped then
    (SetupResult.AlreadyConfigured, ctrl)
  else if validConfig cfg then
    (SetupResult.Ok,
      { state := StreamState.Configured,
        rxBuffers := (declaredChannels cfg.rxCount cfg.rxChannels).map (allocBuffer cfg),
        txBuffers := (declaredChannels cfg.txCount cfg.txChannels).map (allocBuffer cfg),
        config := some cfg })
  else (SetupResult.InvalidConfig, ctrl)

/-- Result of `StreamStart` (§4.1: starting a running module is a soft
warning, not a fatal error). -/
inductive StartResult
  | Started
  | AlreadyRunningWarning
  | NotConfigured
deriving DecidableEq

/-- Modelled from the spec: `StreamStart` transitions `Configured` to
`Running`; on an already `Running` module it is a no-op reported as a soft
warning. -/
def StreamStart (ctrl : Controller) : StartResult × Controller :=
  match ctrl.state with
  | StreamState.Configured =>
      (StartResult.Started, { ctrl with state := StreamState.Running })
  | StreamState.Running => (StartResult.AlreadyRunningWarning, ctrl)
  | _ => (StartResult.NotConfigured, ctrl)

/-- Drain the in-flight contents of one buffer. -/
def drainBuffer (b : ChannelBuffer) : ChannelBuffer :=
  { b with data := [] }

/-- Modelled from the spec: `StreamStop` drains in-flight transfers and
transitions to `Stopped` from `Running` or `Configured`; elsewhere it
changes nothing, making it idempotent. -/
def StreamStop (ctrl : Controller) : Controller :=
  match ctrl.state with
  | StreamState.Running =>
      { ctrl with
        state := StreamState.Stopped,
        rxBuffers := ctrl.rxBuffers.map drainBuffer,
        txBuffers := ctrl.txBuffers.map drainBuffer }
  | StreamState.Configured =>
      { ctrl with
        state := StreamState.Stopped,
        rxBuffers := ctrl.rxBuffers.map drainBuffer,
        txBuffers := ctrl.txBuffers.map drainBuffer }
  | _ => ctrl

/-- C1: a descriptor whose RX or TX channel set is out of range, duplicated
or over `MAX_CHANNEL_COUNT`, or whose host or link format is unrecognized,
makes `StreamSetup` fail with `InvalidConfig` from any state where setup is
permitted; and every failing `StreamSetup` returns the controller exactly
as it was before the call (all partial allocation rolled back). -/
theorem streamSetup_invalid_config_rollback (ctrl : Controller)
    (cfg : StreamConfig)
    (hstate : ctrl.state = StreamState.Idle ∨ ctrl.state = StreamState.Stopped)
    (hbad : validChannelSet cfg.rxCount cfg.rxChannels = false ∨
            validChannelSet cfg.txCount cfg.txChannels = false ∨
            recognizedFormat cfg.format = false ∨
            recognizedFormat cfg.linkFormat = false) :
    StreamSetup ctrl cfg = (SetupResult.InvalidConfig, ctrl) ∧
    ∀ (c : Controller) (d : StreamConfig),
      (StreamSetup c d).1 ≠ SetupResult.Ok → (StreamSetup c d).2 = c := by
  constructor
  · have hvc : validConfig cfg = false := by
      unfold validConfig
      rcases hbad with h | h | h | h <;> simp [h]
    unfold StreamSetup
    rcases hstate with h | h <;> simp [h, hvc]
  · intro c d hne
    unfold StreamSetup at hne ⊢
    by_cases h1 : c.state ≠ StreamState.Idle ∧ c.state ≠ StreamState.Stopped
    · simp [h1]
    · by_cases h2 : validConfig d
      · exact absurd (by simp [h1, h2]) hne
      · simp [h1, h2]

/-- Witness for C1: from `Idle`, a descriptor declaring 17 RX channels is
rejected as `InvalidConfig` and the controller is unchanged. -/
theorem streamSetup_invalid_config_witness :
    StreamSetup Controller.idle { StreamConfig.init with rxCount := 17 } =
      (SetupResult.InvalidConfig, Controller.idle) :=
  (streamSetup_invalid_config_rollback Controller.idle
    { StreamConfig.init with rxCount := 17 }
    (Or.inl rfl) (Or.inl (by decide))).1

/-- C6: `StreamStop` is idempotent (a second call changes nothing), a stop
from `Running` or `Configured` lands in `Stopped`, and `StreamStart` on an
already `Running` module is a no-op that reports only the soft warning and
changes no state. -/
theorem streamStop_idempotent_start_noop (ctrl : Controller) :
    StreamStop (StreamStop ctrl) = StreamStop ctrl ∧
    (ctrl.state = StreamState.Running ∨ ctrl.state = StreamState.Configured →
      (StreamStop ctrl).state = StreamState.Stopped) ∧
    (ctrl.state = StreamState.Running →
      StreamStart ctrl = (StartResult.AlreadyRunningWarning, ctrl)) := by
  obtain ⟨st, rx, tx, cfg⟩ := ctrl
  cases st <;>
    simp [StreamStop, StreamStart]

/-- A concrete `Running` controller used by the C6 witness. -/
def runningCtrl : Controller :=
  { state := StreamState.Running,
    rxBuffers := [allocBuffer StreamConfig.init 0],
    txBuffers := [],
    config := some StreamConfig.init }

/-- Witness for C6: on a concrete running controller, stop twice equals stop
once and lands in `Stopped`, and start is the soft-warning no-op. -/
theorem streamStop_idempotent_witness :
    StreamStop (StreamStop runningCtrl) = StreamStop runningCtrl ∧
    (StreamStop runningCtrl).state = StreamState.Stopped ∧
    StreamStart runningCtrl = (StartResult.AlreadyRunningWarning, runningCtrl) :=
  ⟨(streamStop_idempotent_start_noop runningCtrl).1,
   (streamStop_idempotent_start_noop runningCtrl).2.1 (Or.inl rfl),
   (streamStop_idempotent_start_noop runningCtrl).2.2 rfl⟩

/-! ## RX path: timestamp ordering and loss accounting

`StreamRx` is pure virtual in the header; the per-channel receive path is
modelled from the spec (§4.2, §4.4, §5). -/

/-- Modelled from the spec: one timestamped block of samples produced by
the hardware side into a channel's bounded queue. -/
structure RxPacket where
  timestamp : Nat
  samples : List Int
deriving DecidableEq

/-- Modelled from the spec: the caller-facing side of one RX channel: the
queue of pending packets, the hardware timestamp one past the span already
delivered to the caller, and the channel's stats. -/
structure RxChannel where
  fifo : List RxPacket
  nextExpected : Nat
  stats : StreamStats
deriving DecidableEq

/-- Modelled from the spec: the hardware side produces packets in timestamp
order with non-overlapping sample spans, all at or after the span already
delivered (the transport tags packets with monotone hardware time). -/
def packetsOrdered : Nat → List RxPacket → Bool
  | _, [] => true
  | t, p :: rest =>
      decide (t ≤ p.timestamp) &&
      packetsOrdered (p.timestamp + p.samples.length) rest

/-- Well-formedness of an RX channel: its queue is ordered. -/
def RxChannel.wf (ch : RxChannel) : Prop :=
  packetsOrdered ch.nextExpected ch.fifo = true

/-- Modelled from the spec: one `StreamRx` call on a channel.  With an
empty queue it returns `none` (nothing available, polling).  Otherwise it
delivers the head packet, stamps the returned meta timestamp with the
timestamp of the first returned sample, and, when a timestamp gap is
detected, increases `loss` by the size of the gap. -/
def StreamRx (ch : RxChannel) : Option (Nat × List Int) × RxChannel :=
  match ch.fifo with
  | [] => (none, ch)
  | p :: rest =>
      (some (p.timestamp, p.samples),
        { fifo := rest,
          nextExpected := p.timestamp + p.samples.length,
          stats :=
            { ch.stats with
              loss := ch.stats.loss + (p.timestamp - ch.nextExpected),
              packets := ch.stats.packets + 1 } })

/-- C3: on a well-formed RX channel, the timestamps returned by two
consecutive successful `StreamRx` calls are non-decreasing, each call that
detects a gap increases `loss` by exactly the size of the gap (and by zero
when there is no gap), and well-formedness is preserved so the guarantee
extends to every later call. -/
theorem streamRx_ordered_loss_by_gap (ch : RxChannel) (hwf : ch.wf)
    (ts1 : Nat) (s1 : List Int) (ch1 : RxChannel)
    (ts2 : Nat) (s2 : List Int) (ch2 : RxChannel)
    (h1 : StreamRx ch = (some (ts1, s1), ch1))
    (h2 : StreamRx ch1 = (some (ts2, s2), ch2)) :
    ts1 ≤ ts2 ∧
    ch1.stats.loss = ch.stats.loss + (ts1 - ch.nextExpected) ∧
    ch2.stats.loss = ch1.stats.loss + (ts2 - ch1.nextExpected) ∧
    ch1.wf ∧ ch2.wf := by
  obtain ⟨fifo, ne, st⟩ := ch
  cases fifo with
  | nil => simp [StreamRx] at h1
  | cons p rest =>
    simp only [StreamRx, Prod.mk.injEq, Option.some.injEq] at h1
    obtain ⟨⟨hts1, hs1⟩, hch1⟩ := h1
    subst hts1
    subst hch1
    unfold RxChannel.wf at hwf
    rw [packetsOrdered, Bool.and_eq_true, decide_eq_true_eq] at hwf
    cases rest with
    | nil => simp [StreamRx] at h2
    | cons q rest2 =>
      simp only [StreamRx, Prod.mk.injEq, Option.some.injEq] at h2
      obtain ⟨⟨hts2, hs2⟩, hch2⟩ := h2
      subst hts2
      subst hch2
      have hwf2 := hwf.2
      rw [packetsOrdered, Bool.and_eq_true, decide_eq_true_eq] at hwf2
      refine ⟨?_, rfl, rfl, hwf.2, hwf2.2⟩
      exact le_trans (Nat.le_add_right _ _) hwf2.1

/-- A concrete RX channel for the C3 witness: two pending packets, with a
2-tick gap before the first. -/
def rxDemo : RxChannel :=
  { fifo := [⟨100, [1, 2]⟩, ⟨105, [3]⟩], nextExpected := 98,
    stats := StreamStats.init }

/-- The channel after one `StreamRx` call on `rxDemo`. -/
def rxDemo1 : RxChannel := (StreamRx rxDemo).2

/-- The channel after two `StreamRx` calls on `rxDemo`. -/
def rxDemo2 : RxChannel := (StreamRx rxDemo1).2

/-- Witness for C3: on `rxDemo` the two calls return timestamps 100 then
105 (non-decreasing) and the loss counter grows by each detected gap. -/
theorem streamRx_ordered_loss_witness :
    (100 : Nat) ≤ 105 ∧
    rxDemo1.stats.loss = rxDemo.stats.loss + (100 - rxDemo.nextExpected) ∧
    rxDemo2.stats.loss = rxDemo1.stats.loss + (105 - rxDemo1.nextExpected) ∧
    rxDemo1.wf ∧ rxDemo2.wf :=
  streamRx_ordered_loss_by_gap rxDemo rfl 100 [1, 2] rxDemo1 105 [3] rxDemo2
    rfl rfl

/-! ## TX path: the Timestamp Scheduler and late submissions

`StreamTx` is pure virtual in the header; the scheduler is modelled from
the spec (§4.3). -/

/-- Modelled from the spec: one block submitted for timestamped
transmission. -/
structure TxPacket where
  timestamp : Int
  samples : List Int
deriving DecidableEq

/-- Modelled from the spec: the TX side of one channel together with the
Timestamp Scheduler's view of current hardware time and its tolerance
window; `transmitted` is the stream the hardware has actually sent. -/
structure TxChannel where
  running : Bool
  hardwareTime : Int
  tolerance : Int
  pending : List TxPacket
  transmitted : List TxPacket
  stats : StreamStats
deriving DecidableEq

/-- Modelled from the spec: `StreamTx`.  A submission whose timestamp lies
in the past beyond the tolerance window is rejected as a `Late` event: the
block is dropped (it never enters the pending queue), `late` is incremented
by exactly one, and the stream keeps running.  Otherwise the block is
enqueued for timestamp-gated release. -/
def StreamTx (ch : TxChannel) (samples : List Int) (meta : StreamMeta) :
    Int × TxChannel :=
  if ch.running = false then (-1, ch)
  else if meta.useTimestamp &&
      decide (meta.timestamp + ch.tolerance < ch.hardwareTime) then
    (Int.ofNat samples.length,
      { ch with stats := { ch.stats with late := ch.stats.late + 1 } })
  else
    (Int.ofNat samples.length,
      { ch with pending := ch.pending ++ [⟨meta.timestamp, samples⟩] })

/-- Modelled from the spec: one step of the hardware-facing side: when the
head pending block's release time has been reached it is moved, whole, to
the transmitted stream; otherwise hardware time advances one tick. -/
def txStep (ch : TxChannel) : TxChannel :=
  match ch.pending with
  | [] => { ch with hardwareTime := ch.hardwareTime + 1 }
  | p :: rest =>
      if p.timestamp ≤ ch.hardwareTime then
        { ch with pending := rest, transmitted := ch.transmitted ++ [p] }
      else { ch with hardwareTime := ch.hardwareTime + 1 }

/-- Run `n` hardware steps. -/
def txRun : Nat → TxChannel → TxChannel
  | 0, ch => ch
  | n + 1, ch => txRun n (txStep ch)

lemma txStep_preserves_absent (ch : TxChannel) (b : TxPacket)
    (hp : b ∉ ch.pending) (ht : b ∉ ch.transmitted) :
    b ∉ (txStep ch).pending ∧ b ∉ (txStep ch).transmitted := by
  unfold txStep
  cases heq : ch.pending with
  | nil => exact ⟨by simp, ht⟩
  | cons p rest =>
    rw [heq] at hp
    have hbp : b ≠ p := fun h => hp (h ▸ List.mem_cons_self p rest)
    have hbr : b ∉ rest := fun h => hp (List.mem_cons_of_mem p h)
    by_cases hdue : p.timestamp ≤ ch.hardwareTime
    · simp only [hdue, if_pos]
      refine ⟨hbr, ?_⟩
      intro hmem
      rcases List.mem_append.mp hmem with h | h
      · exact ht h
      · exact hbp (List.mem_singleton.mp h)
    · simp only [hdue, if_neg, not_false_iff]
      exact ⟨hp, ht⟩

lemma txRun_preserves_absent (b : TxPacket) :
    ∀ (n : Nat) (ch : TxChannel), b ∉ ch.pending → b ∉ ch.transmitted →
      b ∉ (txRun n ch).pending ∧ b ∉ (txRun n ch).transmitted
  | 0, _, hp, ht => ⟨hp, ht⟩
  | n + 1, ch, hp, ht =>
      have h := txStep_preserves_absent ch b hp ht
      txRun_preserves_absent b n (txStep ch) h.1 h.2

/-- C4: a `StreamTx` call whose meta timestamp lies in the past beyond the
tolerance window increments the channel's `late` counter by exactly one,
leaves the stream running, and the submitted block never appears in the
transmitted stream no matter how long the hardware keeps running
(provided an identical block was not already queued or sent). -/
theorem streamTx_late_rejected (ch : TxChannel) (samples : List Int)
    (meta : StreamMeta)
    (hrun : ch.running = true)
    (huse : meta.useTimestamp = true)
    (hlate : meta.timestamp + ch.tolerance < ch.hardwareTime)
    (hfresh : (⟨meta.timestamp, samples⟩ : TxPacket) ∉ ch.pending ∧
              (⟨meta.timestamp, samples⟩ : TxPacket) ∉ ch.transmitted) :
    (StreamTx ch samples meta).2.stats.late = ch.stats.late + 1 ∧
    (StreamTx ch samples meta).2.running = true ∧
    ∀ n : Nat, (⟨meta.timestamp, samples⟩ : TxPacket) ∉
      (txRun n (StreamTx ch samples meta).2).transmitted := by
  have hcond : (StreamTx ch samples meta).2 =
      { ch with stats := { ch.stats with late := ch.stats.late + 1 } } := by
    unfold StreamTx
    rw [hrun]
    simp only [huse, Bool.true_and, decide_eq_true_eq, hlate, if_pos]
    simp
  rw [hcond]
  refine ⟨rfl, hrun, fun n => ?_⟩
  exact (txRun_preserves_absent ⟨meta.timestamp, samples⟩ n
    { ch with stats := { ch.stats with late := ch.stats.late + 1 } }
    hfresh.1 hfresh.2).2

/-- A concrete running TX channel for the C4 witness. -/
def txDemo : TxChannel :=
  { running := true, hardwareTime := 1000, tolerance := 10, pending := [],
    transmitted := [], stats := StreamStats.init }

/-- A submission whose timestamp 5 is in the past beyond the tolerance
window (hardware time 1000, tolerance 10). -/
def txDemoMeta : StreamMeta :=
  { timestamp := 5, useTimestamp := true, flush := false }

/-- Witness for C4: on `txDemo` the late submission bumps `late` to 1,
leaves the stream running, and after four further hardware steps the block
still has not been transmitted. -/
theorem streamTx_late_witness :
    (StreamTx txDemo [7] txDemoMeta).2.stats.late = txDemo.stats.late + 1 ∧
    (StreamTx txDemo [7] txDemoMeta).2.running = true ∧
    (⟨5, [7]⟩ : TxPacket) ∉
      (txRun 4 (StreamTx txDemo [7] txDemoMeta).2).transmitted := by
  have h := streamTx_late_rejected txDemo [7] txDemoMeta rfl rfl (by decide)
    ⟨by simp [txDemo], by simp [txDemo]⟩
  exact ⟨h.1, h.2.1, h.2.2 4⟩

/-! ## Stats Collector: FIFO fill fraction and overrun accounting

`StreamStatus` and the statistics update path are behind the pure virtual
interface; the collector is modelled from the spec (§4.4). -/

/-- Modelled from the spec: one bounded per-channel FIFO as observed by the
Stats Collector: `FIFO_filled` is queue occupancy over capacity; a producer
write into a full queue drops the oldest block and counts one overrun; a
consumer read from an empty queue counts one underrun. -/
structure Fifo where
  capacity : Nat
  queue : List Int
  stats : StreamStats
deriving DecidableEq

/-- Recompute the `FIFO_filled` gauge as occupancy over capacity. -/
def updateFill (f : Fifo) : Fifo :=
  { f with
    stats :=
      { f.stats with
        FIFO_filled := (f.queue.length : ℚ) / (f.capacity : ℚ) } }

/-- Producer/consumer operations driving one channel's FIFO. -/
inductive FifoOp
  | push (x : Int)
  | pop
deriving DecidableEq

/-- Modelled from the spec: one transfer on the bounded queue, followed by
the synchronous stats update. -/
def fifoStep (f : Fifo) : FifoOp → Fifo
  | FifoOp.push x =>
      if f.queue.length < f.capacity then
        updateFill { f with queue := f.queue ++ [x] }
      else
        updateFill
          { f with
            queue := f.queue.drop 1 ++ [x],
            stats := { f.stats with overrun := f.stats.overrun + 1 } }
  | FifoOp.pop =>
      match f.queue with
      | [] =>
          updateFill
            { f with
              stats := { f.stats with underrun := f.stats.underrun + 1 } }
      | _ :: rest => updateFill { f with queue := rest }

/-- A freshly allocated FIFO of the given capacity. -/
def Fifo.init (cap : Nat) : Fifo :=
  { capacity := cap, queue := [], stats := StreamStats.init }

/-- Replay a sequence of producer/consumer operations. -/
def runFifo (f : Fifo) (ops : List FifoOp) : Fifo :=
  ops.foldl fifoStep f

/-- The Stats Collector invariant: capacity is fixed, occupancy never
exceeds it, and the gauge equals occupancy over capacity. -/
def Fifo.inv (cap : Nat) (f : Fifo) : Prop :=
  f.capacity = cap ∧ f.queue.length ≤ cap ∧
  f.stats.FIFO_filled = (f.queue.length : ℚ) / (cap : ℚ)

lemma updateFill_inv (cap : Nat) (g : Fifo) (hc : g.capacity = cap)
    (hl : g.queue.length ≤ cap) : (updateFill g).inv cap := by
  refine ⟨hc, hl, ?_⟩
  simp [updateFill, hc]

lemma fifoStep_inv (cap : Nat) (hcap : 0 < cap) (f : Fifo) (op : FifoOp)
    (hf : f.inv cap) : (fifoStep f op).inv cap := by
  obtain ⟨hcapEq, hlen, _⟩ := hf
  cases op with
  | push x =>
    by_cases hroom : f.queue.length < f.capacity
    · simp only [fifoStep, hroom, if_pos]
      exact updateFill_inv cap _ hcapEq (by simp; omega)
    · simp only [fifoStep, hroom, if_neg, not_false_iff]
      refine updateFill_inv cap _ hcapEq ?_
      show (f.queue.drop 1 ++ [x]).length ≤ cap
      simp only [List.length_append, List.length_drop, List.length_cons,
        List.length_nil]
      omega
  | pop =>
    cases hq : f.queue with
    | nil =>
      simp only [fifoStep, hq]
      exact updateFill_inv cap _ hcapEq (by simp)
    | cons y rest =>
      simp only [fifoStep, hq]
      refine updateFill_inv cap _ hcapEq ?_
      show rest.length ≤ cap
      rw [hq] at hlen
      simp only [List.length_cons] at hlen
      omega

lemma runFifo_inv (cap : Nat) (hcap : 0 < cap) (ops : List FifoOp) :
    ∀ f : Fifo, f.inv cap → (runFifo f ops).inv cap := by
  induction ops with
  | nil => exact fun f hf => hf
  | cons op rest ih =>
    exact fun f hf => ih (fifoStep f op) (fifoStep_inv cap hcap f op hf)

lemma fifoStep_overrun_mono (f : Fifo) (op : FifoOp) :
    f.stats.overrun ≤ (fifoStep f op).stats.overrun := by
  cases op with
  | push x =>
    by_cases hroom : f.queue.length < f.capacity
    · simp [fifoStep, hroom, updateFill]
    · simp [fifoStep, hroom, updateFill]
  | pop =>
    cases hq : f.queue with
    | nil => simp [fifoStep, hq, updateFill]
    | cons y rest => simp [fifoStep, hq, updateFill]

lemma runFifo_overrun_mono (ops : List FifoOp) :
    ∀ f : Fifo, f.stats.overrun ≤ (runFifo f ops).stats.overrun := by
  induction ops with
  | nil => exact fun f => le_refl _
  | cons op rest ih =>
    exact fun f => le_trans (fifoStep_overrun_mono f op) (ih (fifoStep f op))

lemma fifoStep_overrun_incr (cap : Nat) (hcap : 0 < cap) (f : Fifo)
    (op : FifoOp) (hf : f.inv cap)
    (hne : (fifoStep f op).stats.overrun ≠ f.stats.overrun) :
    f.stats.FIFO_filled = 1 := by
  obtain ⟨hcapEq, hlen, hfill⟩ := hf
  cases op with
  | pop =>
    exfalso
    apply hne
    cases hq : f.queue with
    | nil => simp [fifoStep, hq, updateFill]
    | cons y rest => simp [fifoStep, hq, updateFill]
  | push x =>
    by_cases hroom : f.queue.length < f.capacity
    · exact absurd (by simp [fifoStep, hroom, updateFill]) hne
    · have hfull : f.queue.length = cap := by omega
      rw [hfill, hfull, div_self]
      exact Nat.cast_ne_zero.mpr (Nat.pos_iff_ne_zero.mp hcap)

/-- C5: in every reachable stats snapshot of a channel's FIFO (any
operation sequence replayed from a fresh FIFO of positive capacity),
`FIFO_filled` lies in `[0, 1]`; the overrun counter never decreases across
later snapshots; and a step can change the overrun counter only when the
snapshot shows the FIFO at capacity (`FIFO_filled = 1`). -/
theorem fifo_filled_in_unit_overrun_monotone (cap : Nat) (hcap : 0 < cap)
    (ops more : List FifoOp) (op : FifoOp) :
    0 ≤ (runFifo (Fifo.init cap) ops).stats.FIFO_filled ∧
    (runFifo (Fifo.init cap) ops).stats.FIFO_filled ≤ 1 ∧
    (runFifo (Fifo.init cap) ops).stats.overrun ≤
      (runFifo (Fifo.init cap) (ops ++ more)).stats.overrun ∧
    ((fifoStep (runFifo (Fifo.init cap) ops) op).stats.overrun ≠
        (runFifo (Fifo.init cap) ops).stats.overrun →
      (runFifo (Fifo.init cap) ops).stats.FIFO_filled = 1) := by
  have hinit : (Fifo.init cap).inv cap := by
    refine ⟨rfl, by simp [Fifo.init], ?_⟩
    simp [Fifo.init, StreamStats.init]
  have hinv := runFifo_inv cap hcap ops (Fifo.init cap) hinit
  have hcapQ : (0 : ℚ) < (cap : ℚ) := by exact_mod_cast hcap
  obtain ⟨hcapEq, hlen, hfill⟩ := hinv
  refine ⟨?_, ?_, ?_, ?_⟩
  · rw [hfill]
    positivity
  · rw [hfill, div_le_one hcapQ]
    exact_mod_cast hlen
  · have happ : runFifo (Fifo.init cap) (ops ++ more) =
        runFifo (runFifo (Fifo.init cap) ops) more := by
      simp [runFifo, List.foldl_append]
    rw [happ]
    exact runFifo_overrun_mono more _
  · exact fifoStep_overrun_incr cap hcap _ op ⟨hcapEq, hlen, hfill⟩

/-- The FIFO reached by overfilling a capacity-2 FIFO with three pushes. -/
def fifoDemo : Fifo :=
  runFifo (Fifo.init 2) [FifoOp.push 1, FifoOp.push 2, FifoOp.push 3]

/-- Witness for C5: after three pushes into a capacity-2 FIFO the gauge is
within `[0, 1]` (indeed at capacity), a further push cannot decrease the
overrun counter, and the step that does change it happens at
`FIFO_filled = 1`. -/
theorem fifo_filled_witness :
    0 ≤ fifoDemo.stats.FIFO_filled ∧
    fifoDemo.stats.FIFO_filled ≤ 1 ∧
    fifoDemo.stats.overrun ≤
      (runFifo (Fifo.init 2)
        ([FifoOp.push 1, FifoOp.push 2, FifoOp.push 3] ++ [FifoOp.push 4])).stats.overrun ∧
    fifoDemo.stats.FIFO_filled = 1 := by
  have h := fifo_filled_in_unit_overrun_monotone 2 (by decide)
    [FifoOp.push 1, FifoOp.push 2, FifoOp.push 3] [FifoOp.push 4]
    (FifoOp.push 5)
  exact ⟨h.1, h.2.1, h.2.2.1, h.2.2.2 (by decide)⟩
